import Mathlib

/-!
Verification model of the ybox core: the container/package state store
(`src/ybox/state.py`) and the package-install orchestrator with its
optional-dependency discovery parser (`src/ybox/pkg/inst.py`).

The SQLite tables are modelled as Lean lists of rows in table order; each SQL
statement of the source is translated row-by-row into the corresponding list
operation (`DELETE ... WHERE p` becomes a `filter` by the negation of `p`,
`UPDATE ... WHERE p` becomes a `map` that rewrites exactly the rows matching
`p` followed by a re-check of the table's `PRIMARY KEY` constraint, and
`INSERT` appends after checking the key).  A violated constraint is an
`Except` error: SQLite raises `IntegrityError`, the statement is rolled back,
the Python exception propagates out of the `YboxStateManagement` method, and
the surrounding transaction is rolled back by `__exit__`, so the caller
observes an exception and an unchanged database.  Python string truthiness
(`if shared_root:`) is translated as inequality with the empty string.
-/

/-- A row of the `containers` table:
`containers(name PRIMARY KEY, distribution, shared_root, configuration)`. -/
structure ContainerRow where
  name : String
  distribution : String
  shared_root : String
  configuration : String
deriving DecidableEq

/-- A row of the `packages` table:
`packages(name, container, shared_root, local_copies, type, PRIMARY KEY(name, container))`.
The `type` column is called `package_type` here (after the keyword argument of
`register_package`) because of Lean naming conventions. -/
structure PackageRow where
  name : String
  container : String
  shared_root : String
  local_copies : String
  package_type : String
deriving DecidableEq

/-- The primary key of a `packages` row. -/
def PackageRow.key (r : PackageRow) : String × String := (r.name, r.container)

/-- The whole persisted database state: both tables, rows kept in table order. -/
structure YboxState where
  containers : List ContainerRow
  packages : List PackageRow
deriving DecidableEq

/-- The subquery of the orphaning `UPDATE` in `__unregister_container`:
`SELECT d_pkgs.name FROM packages d_pkgs LEFT OUTER JOIN (SELECT name,
shared_root FROM packages WHERE shared_root <> "" AND container <> ?) pkgs ON
(d_pkgs.name = pkgs.name AND d_pkgs.shared_root = pkgs.shared_root) WHERE
d_pkgs.container = ? AND pkgs.name IS NULL`.  `orphanNameSelect pkgs cn n`
decides whether `n` is in the selected set: some row `d` owned by `cn` has name
`n` and no row of another container with a non-empty shared root matches `d`
on both name and shared root. -/
def orphanNameSelect (pkgs : List PackageRow) (cn : String) (n : String) : Bool :=
  pkgs.any fun d => d.container == cn && d.name == n &&
    !(pkgs.any fun p => p.shared_root != "" && p.container != cn &&
        p.name == d.name && p.shared_root == d.shared_root)

/-- The row rewrite performed by `UPDATE packages SET container = '' WHERE name
IN (orphanNameSelect ...)`: a row whose name is in the selected set gets its
container blanked, every other row is untouched. -/
def orphanUpdateRow (pkgs : List PackageRow) (cn : String) (r : PackageRow) : PackageRow :=
  if orphanNameSelect pkgs cn r.name then { r with container := "" } else r

/-- The row rewrites of the `UPDATE` statement applied to the whole `packages`
table (the value side, before the constraint check). -/
def orphanUpdateRows (pkgs : List PackageRow) (cn : String) : List PackageRow :=
  pkgs.map (orphanUpdateRow pkgs cn)

/-- The orphaning `UPDATE` statement with the `PRIMARY KEY(name, container)`
constraint of the `packages` table: when two updated rows would collapse to
the same `(name, '')` key, SQLite raises
`IntegrityError: UNIQUE constraint failed: packages.name, packages.container`
and the statement (and subsequently, via the exception, the transaction) is
rolled back, leaving the table unchanged — hence no result state on error. -/
def orphanUpdate (pkgs : List PackageRow) (cn : String) :
    Except String (List PackageRow) :=
  if ((orphanUpdateRows pkgs cn).map PackageRow.key).Nodup then
    .ok (orphanUpdateRows pkgs cn)
  else
    .error "UNIQUE constraint failed: packages.name, packages.container"

/-- `YboxStateManagement.__unregister_container(container_name, commit)`:
deletes the container row (returning whether one existed); if the deleted
container had a non-empty `shared_root`, runs the orphaning `UPDATE` (whose
`IntegrityError` propagates); finally deletes all package rows still owned by
the container. -/
def unregisterContainerCore (cn : String) (st : YboxState) :
    Except String (Bool × YboxState) :=
  let row? := st.containers.find? fun c => c.name == cn
  let pkgs1? : Except String (List PackageRow) :=
    match row? with
    | some r => if r.shared_root != "" then orphanUpdate st.packages cn else .ok st.packages
    | none => .ok st.packages
  match pkgs1? with
  | .error e => .error e
  | .ok pkgs1 =>
    .ok (row?.isSome, ⟨st.containers.filter fun c => c.name != cn,
      pkgs1.filter fun p => p.container != cn⟩)

/-- `YboxStateManagement.unregister_container(container_name)`: the public
entry point; the transaction begin/commit has no observable effect in this
sequential model (on an error the transaction is rolled back, so the caller
sees the unchanged input state). -/
def unregister_container (cn : String) (st : YboxState) :
    Except String (Bool × YboxState) :=
  unregisterContainerCore cn st

/-- `INSERT INTO containers VALUES (?, ?, ?, ?)` with its `PRIMARY KEY(name)`
constraint: a duplicate name is a constraint error. -/
def insertContainer (r : ContainerRow) (st : YboxState) : Except String YboxState :=
  if st.containers.any fun c => c.name == r.name then
    .error "UNIQUE constraint failed: containers.name"
  else
    .ok { st with containers := st.containers ++ [r] }

/-- `YboxStateManagement.register_container(container_name, distribution,
shared_root, parser)`: first fully unregisters any existing row for the name
(with its package cascade, whose `IntegrityError` propagates), then inserts
the new row.  The INI text produced from the parser is abstracted as the
string `configuration`. -/
def register_container (cn distribution shared_root configuration : String)
    (st : YboxState) : Except String YboxState :=
  match unregisterContainerCore cn st with
  | .error e => .error e
  | .ok u => insertContainer ⟨cn, distribution, shared_root, configuration⟩ u.2

/-- `YboxStateManagement.register_package(container_name, package, shared_root,
local_copies, package_type)`: raises `FileNotFoundError` on an empty package
name before touching the database; otherwise deletes the old row for the
`(package, container)` key, inserts the fresh row, and, when `shared_root` is
non-empty, deletes any orphan row (`container = ''`) for the same name and
shared root. -/
def register_package (cn pkg shared_root : String) (local_copies : List String)
    (package_type : String) (st : YboxState) : Except String YboxState :=
  if pkg = "" then
    .error "Empty package provided to register_package"
  else
    let newRow : PackageRow :=
      ⟨pkg, cn, shared_root, String.intercalate "," local_copies, package_type⟩
    let pkgs1 := st.packages.filter fun r => !(r.name == pkg && r.container == cn)
    let pkgs2 := pkgs1 ++ [newRow]
    let pkgs3 :=
      if shared_root != "" then
        pkgs2.filter fun r =>
          !(r.name == pkg && r.container == "" && r.shared_root == shared_root)
      else
        pkgs2
    .ok { st with packages := pkgs3 }

/-- Helper for `pySplitComma`: accumulates the current field (reversed) while
scanning the character list. -/
def splitOnCommaAux : List Char → List Char → List (List Char)
  | [], acc => [acc.reverse]
  | c :: cs, acc =>
    if c = ',' then acc.reverse :: splitOnCommaAux cs [] else splitOnCommaAux cs (c :: acc)

/-- Python `s.split(",")`: splits on every comma, keeping empty fields. -/
def pySplitComma (s : String) : List String :=
  (splitOnCommaAux s.toList []).map fun l => String.mk l

/-- The flattening of the Python comprehension
`[file for row in rows if row[0] for file in str(row[0]).split(",")]` over the
rows returned by the `DELETE ... RETURNING local_copies`. -/
def flattenLocalCopies (rows : List PackageRow) : List String :=
  (rows.filter fun r => r.local_copies != "").flatMap fun r => pySplitComma r.local_copies

/-- `YboxStateManagement.unregister_package(container_name, package,
shared_root)`: when `shared_root` is non-empty deletes every row with that name
and shared root regardless of container, otherwise deletes only the row with
that name owned by `container_name`; returns the flattened list of the deleted
rows' `local_copies` fields split on commas. -/
def unregister_package (cn pkg shared_root : String) (st : YboxState) :
    List String × YboxState :=
  if shared_root != "" then
    let deleted := st.packages.filter fun r => r.name == pkg && r.shared_root == shared_root
    let remaining := st.packages.filter fun r => !(r.name == pkg && r.shared_root == shared_root)
    (flattenLocalCopies deleted, { st with packages := remaining })
  else
    let deleted := st.packages.filter fun r => r.name == pkg && r.container == cn
    let remaining := st.packages.filter fun r => !(r.name == pkg && r.container == cn)
    (flattenLocalCopies deleted, { st with packages := remaining })

/-- The sqlite connection as seen by `YboxStateManagement.close`: the last
committed database state, an optional pending (uncommitted) state, and whether
the connection has been closed.  `sqlite3` raises `ProgrammingError: Cannot
operate on a closed database.` for any operation on a closed connection. -/
structure Conn where
  committed : YboxState
  pending : Option YboxState
  closed : Bool
deriving DecidableEq

/-- `Connection.rollback()`: discards the pending transaction; raises if the
connection is already closed. -/
def connRollback (c : Conn) : Except String Conn :=
  if c.closed then .error "Cannot operate on a closed database."
  else .ok { c with pending := none }

/-- `Connection.close()`: releases the connection; an uncommitted transaction
is discarded.  (Closing an already-closed connection is itself a no-op in
`sqlite3`.) -/
def connClose (c : Conn) : Conn :=
  { c with pending := none, closed := true }

/-- `YboxStateManagement.close()`: `self.__conn.rollback()` followed by
`self.__conn.close()`. -/
def closeState (c : Conn) : Except String Conn := do
  let c1 ← connRollback c
  .ok (connClose c1)

/-! ## Dependency discovery parser (`get_optional_deps` in `src/ybox/pkg/inst.py`)

The subprocess stdout is modelled as a `List Char` (the decoded byte stream);
the streaming loop is translated structurally: each byte read is forwarded,
a side buffer accumulates the current line, and on a newline the decoded line
is tested with `startswith` against the sentinel.  The flush bookkeeping of the
source only controls when already-forwarded bytes become visible and has no
effect on what is forwarded, so it is not modelled. -/

/-- The sentinel text `pkg_start = "Found optional dependencies"`. -/
def pkg_start : List Char := "Found optional dependencies".toList

/-- Python `str.startswith` on character lists (first argument the candidate
pattern, mirroring `output.startswith(pkg_start)`). -/
def startsWithChars : List Char → List Char → Bool
  | [], _ => true
  | _ :: _, [] => false
  | p :: ps, c :: cs => p == c && startsWithChars ps cs

/-- The byte-forwarding loop of `get_optional_deps`: reads one character at a
time, forwards it, and accumulates the current line (reversed) in `acc`.  On a
newline, if the line so far starts with the sentinel, the loop breaks; the
result is the pair of all forwarded characters and the unread remainder of the
stream. -/
def forwardUntilSentinel : List Char → List Char → List Char × List Char
  | [], _acc => ([], [])
  | c :: cs, acc =>
    if c = '\n' then
      if startsWithChars pkg_start acc.reverse then ([c], cs)
      else
        let r := forwardUntilSentinel cs []
        (c :: r.1, r.2)
    else
      let r := forwardUntilSentinel cs (c :: acc)
      (c :: r.1, r.2)

/-- Helper for `readLines`: splits the remaining stream the way repeated
`readline()` calls do — each returned line keeps its trailing newline, and a
final unterminated chunk is returned as-is. -/
def readLinesAux : List Char → List Char → List (List Char)
  | [], acc => if acc.isEmpty then [] else [acc.reverse]
  | c :: cs, acc =>
    if c = '\n' then (acc.reverse ++ ['\n']) :: readLinesAux cs []
    else readLinesAux cs (c :: acc)

/-- All lines produced by the `while pkg_out := deps_result.stdout.readline()`
loop over the unread remainder of the stream. -/
def readLines (s : List Char) : List (List Char) :=
  readLinesAux s []

/-- Characters Python `str.strip()` removes (the ASCII whitespace relevant
here; the record lines contain no exotic unicode whitespace). -/
def isPySpace (c : Char) : Bool :=
  c = ' ' || c = '\t' || c = '\n' || c = '\r'

/-- Python `str.strip()` on a character list. -/
def stripChars (s : List Char) : List Char :=
  ((s.dropWhile isPySpace).reverse.dropWhile isPySpace).reverse

/-- The value of a non-empty all-digit character list. -/
def digitsVal? (s : List Char) : Option Nat :=
  if s.isEmpty then none
  else if s.all Char.isDigit then
    some (s.foldl (fun a c => a * 10 + (c.toNat - 48)) 0)
  else none

/-- Python `int(s)` restricted to the decimal forms used by the record
protocol: optional surrounding whitespace, an optional sign, then decimal
digits; everything else is a `ValueError` (`none`). -/
def pyInt? (s : List Char) : Option Int :=
  match stripChars s with
  | '-' :: rest => (digitsVal? rest).map fun n => -(n : Int)
  | '+' :: rest => (digitsVal? rest).map fun n => (n : Int)
  | t => (digitsVal? t).map fun n => (n : Int)

/-- The four-colon field delimiter of the record lines. -/
def splitFourColons : List Char → List Char → List (List Char)
  | [], acc => [acc.reverse]
  | ':' :: ':' :: ':' :: ':' :: rest, acc => acc.reverse :: splitFourColons rest []
  | c :: cs, acc => splitFourColons cs (c :: acc)

/-- One iteration of the record-parsing loop:
`name, desc, level = output[len(pkg_prefix):].split("::::")` followed by
`int(level.strip())`.  The source drops the first five characters of every
line unconditionally (`pkg_prefix = "PKG: "`); a line whose remainder does not
split into exactly three fields, or whose third field is not an integer,
raises `ValueError`. -/
def parsePkgLine (line : List Char) : Except String (String × String × Int) :=
  match splitFourColons (line.drop 5) [] with
  | [n, d, l] =>
    match pyInt? l with
    | some v => .ok (String.mk n, String.mk d, v)
    | none => .error "ValueError: invalid literal for int"
  | _ => .error "ValueError: not enough values to unpack"

/-- The whole record-parsing loop, accumulating tuples in arrival order. -/
def parsePkgLines : List (List Char) → Except String (List (String × String × Int))
  | [] => .ok []
  | l :: ls => do
    let t ← parsePkgLine l
    let rest ← parsePkgLines ls
    .ok (t :: rest)

/-- Outcome of a `get_optional_deps` run.  `ok` carries the forwarded
characters, the returned dependency list and whether the failure warning was
printed; `valueError` is a `ValueError` escaping the record-parsing loop;
`timeoutExpired` is the `subprocess.TimeoutExpired` raised by
`deps_result.wait(60)` when the subprocess does not terminate within the
bounded wait. -/
inductive DepsOutcome where
  | ok (forwarded : List Char) (deps : List (String × String × Int)) (warned : Bool)
  | valueError (forwarded : List Char)
  | timeoutExpired (forwarded : List Char)
deriving DecidableEq

/-- `get_optional_deps(package, docker_cmd, container_name, opt_deps_cmd)` as a
function of the subprocess stdout stream and of the result of
`deps_result.wait(60)` — `some c` when the subprocess terminated with exit
status `c` within the bounded wait, `none` when it did not (in which case
Python's `Popen.wait` raises `TimeoutExpired` instead of returning). -/
def get_optional_deps (stream : List Char) (waitResult : Option Int) : DepsOutcome :=
  let fr := forwardUntilSentinel stream []
  match parsePkgLines (readLines fr.2) with
  | .error _ => .valueError fr.1
  | .ok deps =>
    match waitResult with
    | none => .timeoutExpired fr.1
    | some c => if c ≠ 0 then .ok fr.1 [] true else .ok fr.1 deps false

/-! ## Install orchestrator (`_install_package` in `src/ybox/pkg/inst.py`)

The orchestrator is modelled as a function from an environment (the outcomes
of the external collaborators: the check command, the install command, the
discovery run and the selection UI) to the primary exit code together with a
trace of the externally visible events, in program order.  Recursion is by
fuel; any fuel of at least two covers every actual run, because recursive
calls pass `opt_deps_cmd = ""` and `selected_deps = None`, so they never
recurse further. -/

/-- Externally visible events of one `_install_package` run, in order. -/
inductive Event where
  | discover (pkg : String)
  | checkPkg (pkg : String) (code : Int)
  | notice (pkg : String)
  | info (pkg : String)
  | install (pkg : String) (withOptDepFlag : Bool) (code : Int)
  | wrap (pkg : String)
  | register (pkg : String) (package_type : String)
  | selectMenu (pkg : String)
deriving DecidableEq

/-- Outcomes of the external collaborators, per package name. -/
structure InstallEnv where
  checkResult : String → Int
  installResult : String → Int
  discovered : String → List (String × String × Int)
  selection : String → List (String × String × Int) → List String

/-- `_install_package(package, args, install_cmd, list_cmd, docker_cmd, conf,
rt_conf, state, opt_deps_cmd, opt_dep_flag, opt_dep_install, check_cmd,
selected_deps, quiet)`.  `argsPackage` is `args.package` (used for the
`optional(<parent>)` type tag), `addDepWrappers` is `args.add_dep_wrappers`.
The `{opt_dep}` placeholder resolution is reflected in the `withOptDepFlag`
field of the `install` event.  Returns the exit code of the main package's
install command and the event trace. -/
def installPackage (env : InstallEnv) :
    Nat → String → String → Bool → String → Bool → String →
    Option (List String) → Bool → Int × List Event
  | 0, _, _, _, _, _, _, _, _ => (-1, [])
  | fuel + 1, package, argsPackage, addDepWrappers, optDepsCmd, optDepInstall,
      checkCmd, selectedDeps, quiet =>
    let runDiscovery := optDepsCmd ≠ "" && selectedDeps == none
    let optionalDeps := if runDiscovery then env.discovered package else []
    let discoverTrace : List Event := if runDiscovery then [.discover package] else []
    let code0 : Int := -1
    let checkRan := checkCmd ≠ ""
    let code1 := if checkRan then env.checkResult package else code0
    let checkTrace : List Event :=
      if checkRan then
        .checkPkg package code1 ::
          (if code1 = 0 && !quiet then [.notice package] else [])
      else []
    let code2 := if code1 ≠ 0 then env.installResult package else code1
    let installTrace : List Event :=
      if code1 ≠ 0 then
        (if quiet then [] else [.info package]) ++ [.install package optDepInstall code2]
      else []
    if code2 = 0 then
      let wrapTrace : List Event :=
        if !optDepInstall || addDepWrappers then [.wrap package] else []
      let packageType := if optDepInstall then "optional(" ++ argsPackage ++ ")" else ""
      let registerTrace : List Event := [.register package packageType]
      let runSelect := !optionalDeps.isEmpty && selectedDeps == none
      let selectTrace : List Event := if runSelect then [.selectMenu package] else []
      let selectedDeps2 :=
        if runSelect then some (env.selection package optionalDeps) else selectedDeps
      let depTrace : List Event :=
        match selectedDeps2 with
        | some deps =>
          deps.flatMap fun dep =>
            (installPackage env fuel dep argsPackage addDepWrappers "" true
              checkCmd none quiet).2
        | none => []
      (code2, discoverTrace ++ checkTrace ++ installTrace ++ wrapTrace ++ registerTrace ++
        selectTrace ++ depTrace)
    else
      (code2, discoverTrace ++ checkTrace ++ installTrace)

/-- The packages for which an install command was executed, in order. -/
def installedPkgs (trace : List Event) : List String :=
  trace.filterMap fun e =>
    match e with
    | .install p _ _ => some p
    | _ => none

/-- The packages for which a discovery run was started, in order. -/
def discoveredPkgs (trace : List Event) : List String :=
  trace.filterMap fun e =>
    match e with
    | .discover p => some p
    | _ => none

/-- The number of `print_notice` calls in a trace. -/
def noticeCount (trace : List Event) : Nat :=
  (trace.filterMap fun e =>
    match e with
    | .notice p => some p
    | _ => none).length

/-! ## Generic list helpers -/

/-- Filtering by a predicate after keeping only its complement yields nothing. -/
theorem filter_not_filter {α : Type} (p : α → Bool) (l : List α) :
    (l.filter fun a => !(p a)).filter p = [] := by
  induction l with
  | nil => rfl
  | cons h t ih =>
    by_cases hp : p h <;> simp [List.filter_cons, hp, ih]

/-- Any-search by a predicate fails on the list of its complement. -/
theorem filter_not_any {α : Type} (p : α → Bool) (l : List α) :
    (l.filter fun a => !(p a)).any p = false := by
  induction l with
  | nil => rfl
  | cons h t ih =>
    by_cases hp : p h <;> simp [List.filter_cons, hp, ih]

/-- When keys are unique, filtering by a predicate that pins down the key of a
member `r` produces exactly `[r]`. -/
theorem filter_eq_singleton_of_key {α β : Type} [DecidableEq β] (key : α → β)
    (p : α → Bool) (r : α) :
    ∀ l : List α, (l.map key).Nodup → r ∈ l → p r = true →
      (∀ x ∈ l, p x = true → key x = key r) → l.filter p = [r]
  | [], _, hr, _, _ => absurd hr (List.not_mem_nil r)
  | h :: t, hnd, hr, hpr, hkey => by
    rw [List.map_cons, List.nodup_cons] at hnd
    by_cases hph : p h
    · have hkh : key h = key r := hkey h (List.mem_cons_self h t) hph
      have hrh : r = h := by
        rcases List.mem_cons.mp hr with h1 | h1
        · exact h1
        · exact absurd (hkh ▸ List.mem_map_of_mem key h1) hnd.1
      have ht : t.filter p = [] := by
        rw [List.filter_eq_nil_iff]
        intro x hx hpx
        exact hnd.1 (by
          have : key x = key h := (hkey x (List.mem_cons_of_mem h hx) hpx).trans hkh.symm
          exact this ▸ List.mem_map_of_mem key hx)
      simp [List.filter_cons, hph, ht, hrh]
    · have hrt : r ∈ t := by
        rcases List.mem_cons.mp hr with h1 | h1
        · exact absurd (h1 ▸ hpr) (by simpa using hph)
        · exact h1
      have := filter_eq_singleton_of_key key p r t hnd.2 hrt hpr
        (fun x hx hpx => hkey x (List.mem_cons_of_mem h hx) hpx)
      simp [List.filter_cons, hph, this]

/-- `find?` by name returns the unique member with that name when names are
unique. -/
theorem find_name_unique (cn : String) (c : ContainerRow) :
    ∀ l : List ContainerRow, (l.map ContainerRow.name).Nodup → c ∈ l → c.name = cn →
      l.find? (fun x => x.name == cn) = some c
  | [], _, hc, _ => absurd hc (List.not_mem_nil c)
  | h :: t, hnd, hc, hcn => by
    rw [List.map_cons, List.nodup_cons] at hnd
    by_cases hh : h.name = cn
    · have : c = h := by
        rcases List.mem_cons.mp hc with h1 | h1
        · exact h1
        · exact absurd (by rw [hh, ← hcn]; exact List.mem_map_of_mem ContainerRow.name h1)
            hnd.1
      simp [List.find?_cons, hh, this]
    · have hct : c ∈ t := by
        rcases List.mem_cons.mp hc with h1 | h1
        · exact absurd (h1 ▸ hcn) hh
        · exact h1
      have ht := find_name_unique cn c t hnd.2 hct hcn
      simp [List.find?_cons, hh, ht]

/-! ## Theorems about the state store -/

/-- Claim C9 (corrected, counterexample): a fresh connection closes fine, but a
second `close()` hits `Connection.rollback()` on the already-closed connection,
which raises `ProgrammingError` — `close()` is not idempotent. -/
theorem close_double_cex :
    closeState ⟨⟨[], []⟩, none, false⟩ = .ok ⟨⟨[], []⟩, none, true⟩ ∧
    closeState ⟨⟨[], []⟩, none, true⟩ =
      .error "Cannot operate on a closed database." :=
  ⟨rfl, rfl⟩

/-- Claim C9 (amended): from any state in which the connection is still open,
`close()` succeeds: it rolls back the pending transaction (so the persisted
state stays the last committed state) and releases the connection.  A second
call, however, raises. -/
theorem close_rollback_safe (c : Conn) (h : c.closed = false) :
    ∃ c', closeState c = .ok c' ∧ c'.committed = c.committed ∧ c'.pending = none ∧
      c'.closed = true := by
  refine ⟨⟨c.committed, none, true⟩, ?_, rfl, rfl, rfl⟩
  simp only [closeState, connRollback, connClose, h, Bool.false_eq_true, if_false]
  rfl

/-- Witness for `close_rollback_safe` at a concrete open connection. -/
theorem close_rollback_safe_witness :
    (Conn.closed ⟨⟨[], []⟩, some ⟨[], [⟨"p", "c", "", "", ""⟩]⟩, false⟩) = false ∧
    ∃ c', closeState ⟨⟨[], []⟩, some ⟨[], [⟨"p", "c", "", "", ""⟩]⟩, false⟩ = .ok c' ∧
      c'.committed = ⟨[], []⟩ ∧ c'.pending = none ∧ c'.closed = true :=
  ⟨rfl, close_rollback_safe ⟨⟨[], []⟩, some ⟨[], [⟨"p", "c", "", "", ""⟩]⟩, false⟩ rfl⟩

/-- Filtering by a conjunction with `p` yields nothing on the complement of `p`. -/
theorem filter_not_filter_and {α : Type} (p q : α → Bool) (l : List α) :
    (l.filter fun a => !(p a)).filter (fun a => p a && q a) = [] := by
  induction l with
  | nil => rfl
  | cons h t ih =>
    by_cases hp : p h <;> simp [List.filter_cons, hp, ih]

/-- Inversion: whatever branch `__unregister_container` takes, a successful
run always leaves the `containers` table equal to the input with every row
named `cn` deleted. -/
theorem unregisterContainerCore_ok_containers (cn : String) (st : YboxState)
    (b : Bool) (st' : YboxState)
    (h : unregisterContainerCore cn st = .ok (b, st')) :
    st'.containers = st.containers.filter fun c => c.name != cn := by
  rcases hfind : st.containers.find? fun c => c.name == cn with _ | r
  · have heval : unregisterContainerCore cn st =
        .ok (false, ⟨st.containers.filter fun c => c.name != cn,
          st.packages.filter fun p => p.container != cn⟩) := by
      simp [unregisterContainerCore, hfind]
    rw [heval] at h
    injection h with h'
    injection h' with hb hst
    rw [← hst]
  · by_cases hroot : r.shared_root = ""
    · have heval : unregisterContainerCore cn st =
              .ok (true, ⟨st.containers.filter fun c => c.name != cn,
                st.packages.filter fun p => p.container != cn⟩) := by
        simp [unregisterContainerCore, hfind, hroot]
      rw [heval] at h
      injection h with h'
      injection h' with hb hst
      rw [← hst]
    · rcases hupd : orphanUpdate st.packages cn with e | pkgs1
      · have heval : unregisterContainerCore cn st = .error e := by
          simp [unregisterContainerCore, hfind, hroot, hupd]
        rw [heval] at h
        exact absurd h (by simp)
      · have heval : unregisterContainerCore cn st =
            .ok (true, ⟨st.containers.filter fun c => c.name != cn,
              pkgs1.filter fun p => p.container != cn⟩) := by
          simp [unregisterContainerCore, hfind, hroot, hupd]
        rw [heval] at h
        injection h with h'
        injection h' with hb hst
        rw [← hst]

/-- The effect of one `register_container` call whose package cascade
succeeded: the containers insert itself can never hit the `name` primary key,
and afterwards the rows named `cn` are exactly the new row. -/
theorem register_container_ok (cn distribution shared_root configuration : String)
    (st : YboxState) (u : Bool × YboxState)
    (hu : unregisterContainerCore cn st = .ok u) :
    register_container cn distribution shared_root configuration st =
      .ok { u.2 with containers := u.2.containers ++
        [(⟨cn, distribution, shared_root, configuration⟩ : ContainerRow)] } ∧
    ((u.2.containers ++
        [(⟨cn, distribution, shared_root, configuration⟩ : ContainerRow)]).filter
      fun x => x.name == cn) =
      [(⟨cn, distribution, shared_root, configuration⟩ : ContainerRow)] := by
  have hcont : u.2.containers = st.containers.filter fun c => c.name != cn :=
    unregisterContainerCore_ok_containers cn st u.1 u.2 hu
  have hpred : (fun c : ContainerRow => c.name != cn) =
      (fun c : ContainerRow => !(c.name == cn)) := rfl
  have hany : (u.2.containers.any fun c => c.name == cn) = false := by
    rw [hcont, hpred]; exact filter_not_any _ st.containers
  have hnil : (u.2.containers.filter fun c => c.name == cn) = [] := by
    rw [hcont, hpred]; exact filter_not_filter _ st.containers
  constructor
  · rw [register_container, hu]
    simp only [insertContainer]
    rw [if_neg (by simp [hany])]
  · rw [List.filter_append, hnil]
    simp

/-- Concrete state for the C3 counterexample: container `A` (shared root `R`)
owns `Q`, and container `C` — under the different root `R2` — owns `Q` too. -/
def c3CexState : YboxState :=
  ⟨[⟨"A", "d", "R", "c"⟩, ⟨"C", "d", "R2", "c"⟩],
   [⟨"Q", "A", "R", "", ""⟩, ⟨"Q", "C", "R2", "", ""⟩]⟩

/-- Claim C3 (corrected, counterexample): re-registering `A` runs the
unregister cascade first; its orphaning `UPDATE` selects `Q` (no same-root
peer) and blanks both rows named `Q`, which collide on the
`(name, container)` primary key — the registration raises an
`IntegrityError` instead of replacing the row. -/
theorem register_container_integrity_cex :
    register_container "A" "d" "R" "c" c3CexState =
      .error "UNIQUE constraint failed: packages.name, packages.container" := by
  rfl

/-- Claim C3 (amended): the containers insert itself can never raise a
duplicate-key conflict, because the cascade first deletes every row for the
name: whenever the package cascade succeeds the whole call succeeds.  And for
every two consecutive successful `register_container` calls with the same
name, the final state has exactly one containers row for that name, carrying
the second call's distribution, shared root and configuration.  (The call as
a whole can still fail, in the package cascade: see the counterexample.) -/
theorem register_container_replace (st : YboxState) (cn d1 r1 c1 d2 r2 c2 : String) :
    (∀ u, unregisterContainerCore cn st = .ok u →
      ∃ st1, register_container cn d1 r1 c1 st = .ok st1) ∧
    (∀ st1 st2, register_container cn d1 r1 c1 st = .ok st1 →
      register_container cn d2 r2 c2 st1 = .ok st2 →
      st2.containers.filter (fun x => x.name == cn) = [⟨cn, d2, r2, c2⟩]) := by
  constructor
  · intro u hu
    exact ⟨_, (register_container_ok cn d1 r1 c1 st u hu).1⟩
  · intro st1 st2 h1 h2
    rw [register_container] at h2
    rcases hu2 : unregisterContainerCore cn st1 with e | u2
    · rw [hu2] at h2; exact absurd h2 (by simp)
    · rw [hu2] at h2
      have hok := register_container_ok cn d2 r2 c2 st1 u2 hu2
      rw [register_container, hu2] at hok
      have hst2 : st2 = { u2.2 with containers :=
          u2.2.containers ++ [⟨cn, d2, r2, c2⟩] } := by
        rw [h2] at hok
        exact Except.ok.inj hok.1
      rw [hst2]
      exact hok.2

/-- Witness for `register_container_replace`: two registrations of `box` from
the empty state, with the inner implications discharged concretely. -/
theorem register_container_replace_witness :
    register_container "box" "arch" "/r" "cfg1" ⟨[], []⟩ =
      .ok ⟨[⟨"box", "arch", "/r", "cfg1"⟩], []⟩ ∧
    register_container "box" "arch" "/r" "cfg2" ⟨[⟨"box", "arch", "/r", "cfg1"⟩], []⟩ =
      .ok ⟨[⟨"box", "arch", "/r", "cfg2"⟩], []⟩ ∧
    (YboxState.containers ⟨[⟨"box", "arch", "/r", "cfg2"⟩], []⟩).filter
      (fun x => x.name == "box") = [⟨"box", "arch", "/r", "cfg2"⟩] :=
  ⟨by rfl, by rfl,
    (register_container_replace ⟨[], []⟩ "box" "arch" "/r" "cfg1" "arch" "/r" "cfg2").2
      ⟨[⟨"box", "arch", "/r", "cfg1"⟩], []⟩ ⟨[⟨"box", "arch", "/r", "cfg2"⟩], []⟩
      (by rfl) (by rfl)⟩

/-- Claim C4: `register_package` fails with the invalid-input error exactly
when the package name is empty, and the error is raised before any database
access (in the translation, the error branch precedes every table operation,
so the tables are untouched).  For a non-empty package the call succeeds,
leaving the containers table unchanged and the rows for the
`(package, container)` key being exactly the fresh row. -/
theorem register_package_empty_error (st : YboxState)
    (cn pkg shared_root package_type : String) (local_copies : List String)
    (hcn : cn ≠ "") :
    (register_package cn pkg shared_root local_copies package_type st
        = .error "Empty package provided to register_package" ↔ pkg = "") ∧
    (pkg ≠ "" → ∃ st',
      register_package cn pkg shared_root local_copies package_type st = .ok st' ∧
      st'.containers = st.containers ∧
      st'.packages.filter (fun r => r.name == pkg && r.container == cn) =
        [⟨pkg, cn, shared_root, String.intercalate "," local_copies, package_type⟩]) := by
  constructor
  · by_cases hp : pkg = "" <;> simp [register_package, hp]
  · intro hp
    rw [register_package, if_neg hp]
    refine ⟨_, rfl, rfl, ?_⟩
    simp only []
    have hpred : (fun r : PackageRow => !(r.name == pkg && r.container == cn)) =
        (fun r : PackageRow => !((fun x : PackageRow => x.name == pkg && x.container == cn) r))
        := rfl
    by_cases hr : shared_root = ""
    · rw [if_neg (by simp [hr])]
      rw [List.filter_append, hpred, filter_not_filter]
      simp
    · rw [if_pos (by simp [hr])]
      rw [List.filter_filter, List.filter_append]
      have h1 : ((st.packages.filter fun r => !(r.name == pkg && r.container == cn)).filter
          fun a => (a.name == pkg && a.container == cn) &&
            !(a.name == pkg && a.container == "" && a.shared_root == shared_root)) = [] := by
        rw [hpred]
        exact filter_not_filter_and _ _ st.packages
      rw [h1]
      simp [hcn]

/-- Witness for `register_package_empty_error` at concrete inputs. -/
theorem register_package_empty_error_witness :
    ("box1" : String) ≠ "" ∧
    ((register_package "box1" "" "/sroot" ["w1"] "" ⟨[], []⟩
        = .error "Empty package provided to register_package" ↔ ("" : String) = "") ∧
     (("vim" : String) ≠ "" → ∃ st',
        register_package "box1" "vim" "/sroot" ["w1"] "" ⟨[], []⟩ = .ok st' ∧
        st'.containers = ([] : List ContainerRow) ∧
        st'.packages.filter (fun r => r.name == "vim" && r.container == "box1") =
          [⟨"vim", "box1", "/sroot", String.intercalate "," ["w1"], ""⟩])) := by
  constructor
  · decide
  · constructor
    · exact (register_package_empty_error ⟨[], []⟩ "box1" "" "/sroot" "" ["w1"]
        (by decide)).1
    · exact (register_package_empty_error ⟨[], []⟩ "box1" "vim" "/sroot" "" ["w1"]
        (by decide)).2

/-- Claim C10: for a non-empty package name, `register_package` can only touch
the row keyed by `(package, container)` and — when `shared_root` is non-empty —
the orphan row `(package, '')` with that shared root: every other original row
survives untouched, every row of the result is either an original row or the
fresh row, and when `shared_root` is empty even orphan rows for the same
package name survive. -/
theorem register_package_frame (st : YboxState)
    (cn pkg shared_root package_type : String) (local_copies : List String)
    (hpkg : pkg ≠ "") :
    ∃ st', register_package cn pkg shared_root local_copies package_type st = .ok st' ∧
      (∀ r ∈ st.packages,
        ¬(r.name = pkg ∧ r.container = cn) →
        ¬(shared_root ≠ "" ∧ r.name = pkg ∧ r.container = "" ∧ r.shared_root = shared_root) →
        r ∈ st'.packages) ∧
      (∀ r ∈ st'.packages,
        r ∈ st.packages ∨
          r = ⟨pkg, cn, shared_root, String.intercalate "," local_copies, package_type⟩) ∧
      (shared_root = "" → cn ≠ "" → ∀ r ∈ st.packages, r.name = pkg → r.container = "" →
        r ∈ st'.packages) := by
  rw [register_package, if_neg hpkg]
  refine ⟨_, rfl, ?_, ?_, ?_⟩
  · intro r hr hkey horph
    by_cases hroot : shared_root = ""
    · rw [if_neg (by simp [hroot])]
      refine List.mem_append_left _ (List.mem_filter.mpr ⟨hr, ?_⟩)
      simp only [Bool.not_eq_true', Bool.and_eq_false_iff, beq_eq_false_iff_ne, ne_eq]
      tauto
    · rw [if_pos (by simp [hroot])]
      refine List.mem_filter.mpr ⟨List.mem_append_left _
        (List.mem_filter.mpr ⟨hr, ?_⟩), ?_⟩
      · simp only [Bool.not_eq_true', Bool.and_eq_false_iff, beq_eq_false_iff_ne, ne_eq]
        tauto
      · simp only [Bool.not_eq_true', Bool.and_eq_false_iff, beq_eq_false_iff_ne, ne_eq]
        by_cases h1 : r.name = pkg
        · by_cases h2 : r.container = ""
          · by_cases h3 : r.shared_root = shared_root
            · exact absurd ⟨hroot, h1, h2, h3⟩ horph
            · exact Or.inr h3
          · exact Or.inl (Or.inr h2)
        · exact Or.inl (Or.inl h1)
  · intro r hr
    by_cases hroot : shared_root = ""
    · rw [if_neg (by simp [hroot])] at hr
      rcases List.mem_append.mp hr with h1 | h1
      · exact Or.inl (List.mem_filter.mp h1).1
      · exact Or.inr (List.mem_singleton.mp h1)
    · rw [if_pos (by simp [hroot])] at hr
      rcases List.mem_append.mp (List.mem_filter.mp hr).1 with h1 | h1
      · exact Or.inl (List.mem_filter.mp h1).1
      · exact Or.inr (List.mem_singleton.mp h1)
  · intro hroot hcn r hr hname hcont
    rw [if_neg (by simp [hroot])]
    refine List.mem_append_left _ (List.mem_filter.mpr ⟨hr, ?_⟩)
    simp only [Bool.not_eq_true', Bool.and_eq_false_iff, beq_eq_false_iff_ne, ne_eq]
    exact Or.inr (fun h => hcn (hcont ▸ h).symm)

/-- Witness for `register_package_frame` at concrete inputs: registering
`vim` for `box1` with an empty shared root leaves the orphan row for `vim`
and the unrelated row for `emacs` untouched. -/
theorem register_package_frame_witness :
    ("vim" : String) ≠ "" ∧
    ∃ st', register_package "box1" "vim" "" ["w1"] ""
        ⟨[], [⟨"vim", "", "/sr", "old", ""⟩, ⟨"emacs", "box2", "", "e", ""⟩]⟩ = .ok st' ∧
      (∀ r ∈ [⟨"vim", "", "/sr", "old", ""⟩,
              (⟨"emacs", "box2", "", "e", ""⟩ : PackageRow)],
        ¬(r.name = "vim" ∧ r.container = "box1") →
        ¬(("" : String) ≠ "" ∧ r.name = "vim" ∧ r.container = "" ∧ r.shared_root = "") →
        r ∈ st'.packages) ∧
      (∀ r ∈ st'.packages,
        r ∈ [⟨"vim", "", "/sr", "old", ""⟩,
             (⟨"emacs", "box2", "", "e", ""⟩ : PackageRow)] ∨
          r = ⟨"vim", "box1", "", String.intercalate "," ["w1"], ""⟩) ∧
      (("" : String) = "" → ("box1" : String) ≠ "" →
        ∀ r ∈ [⟨"vim", "", "/sr", "old", ""⟩,
               (⟨"emacs", "box2", "", "e", ""⟩ : PackageRow)],
          r.name = "vim" → r.container = "" → r ∈ st'.packages) :=
  ⟨by decide, register_package_frame
    ⟨[], [⟨"vim", "", "/sr", "old", ""⟩, ⟨"emacs", "box2", "", "e", ""⟩]⟩
    "box1" "vim" "" "" ["w1"] (by decide)⟩

/-- Claim C2 (corrected, counterexample): with two rows for package `P` under
shared root `R` whose wrapper lists share the path `f`, `unregister_package`
returns `["f", "f"]` — the flattened union is not de-duplicated. -/
theorem unregister_package_no_dedup_cex :
    (unregister_package "A" "P" "R"
      ⟨[], [⟨"P", "A", "R", "f", ""⟩, ⟨"P", "B", "R", "f", ""⟩]⟩).1 = ["f", "f"] ∧
    ¬ (["f", "f"] : List String).Nodup := by
  exact ⟨by decide, by decide⟩

/-- Claim C2 (amended): with a non-empty `shared_root`, `unregister_package`
deletes every row with that package name and shared root regardless of its
owning container (orphans with container `''` included), and with an empty
`shared_root` only the row keyed by `(package, container)`; it returns the
flattened (not de-duplicated) concatenation of the deleted rows' wrapper-file
path lists. -/
theorem unregister_package_breadth (st : YboxState) (cn pkg shared_root : String) :
    (shared_root ≠ "" →
      (∀ r ∈ st.packages, r.name = pkg → r.shared_root = shared_root →
        r ∉ (unregister_package cn pkg shared_root st).2.packages) ∧
      (∀ r, r ∈ (unregister_package cn pkg shared_root st).2.packages ↔
        r ∈ st.packages ∧ ¬(r.name = pkg ∧ r.shared_root = shared_root)) ∧
      (unregister_package cn pkg shared_root st).1 =
        flattenLocalCopies (st.packages.filter fun r =>
          r.name == pkg && r.shared_root == shared_root)) ∧
    (shared_root = "" →
      (∀ r, r ∈ (unregister_package cn pkg shared_root st).2.packages ↔
        r ∈ st.packages ∧ ¬(r.name = pkg ∧ r.container = cn)) ∧
      (unregister_package cn pkg shared_root st).1 =
        flattenLocalCopies (st.packages.filter fun r =>
          r.name == pkg && r.container == cn)) := by
  constructor
  · intro hroot
    rw [unregister_package, if_pos (by simp [hroot])]
    refine ⟨?_, ?_, rfl⟩
    · intro r hr hname hshared hmem
      have := (List.mem_filter.mp hmem).2
      simp [hname, hshared] at this
    · intro r
      rw [List.mem_filter]
      simp only [Bool.not_eq_true', Bool.and_eq_false_iff, beq_eq_false_iff_ne, ne_eq,
        not_and_or]
  · intro hroot
    rw [unregister_package, if_neg (by simp [hroot])]
    refine ⟨?_, rfl⟩
    intro r
    rw [List.mem_filter]
    simp only [Bool.not_eq_true', Bool.and_eq_false_iff, beq_eq_false_iff_ne, ne_eq,
      not_and_or]

/-- Witness for `unregister_package_breadth` at concrete inputs: removing `P`
under shared root `R` deletes the rows of containers `A` and `B` and the
orphan row, but not the same-named row under a different root. -/
theorem unregister_package_breadth_witness :
    ("R" : String) ≠ "" ∧
    ((∀ r ∈ YboxState.packages ⟨[], [⟨"P", "A", "R", "f", ""⟩, ⟨"P", "", "R", "g", ""⟩,
        ⟨"P", "D", "R2", "h", ""⟩]⟩, r.name = "P" → r.shared_root = "R" →
        r ∉ (unregister_package "A" "P" "R" ⟨[], [⟨"P", "A", "R", "f", ""⟩,
          ⟨"P", "", "R", "g", ""⟩, ⟨"P", "D", "R2", "h", ""⟩]⟩).2.packages) ∧
     (∀ r, r ∈ (unregister_package "A" "P" "R" ⟨[], [⟨"P", "A", "R", "f", ""⟩,
          ⟨"P", "", "R", "g", ""⟩, ⟨"P", "D", "R2", "h", ""⟩]⟩).2.packages ↔
        r ∈ YboxState.packages ⟨[], [⟨"P", "A", "R", "f", ""⟩, ⟨"P", "", "R", "g", ""⟩,
          ⟨"P", "D", "R2", "h", ""⟩]⟩ ∧ ¬(r.name = "P" ∧ r.shared_root = "R")) ∧
     (unregister_package "A" "P" "R" ⟨[], [⟨"P", "A", "R", "f", ""⟩,
        ⟨"P", "", "R", "g", ""⟩, ⟨"P", "D", "R2", "h", ""⟩]⟩).1 =
       flattenLocalCopies ((YboxState.packages ⟨[], [⟨"P", "A", "R", "f", ""⟩,
         ⟨"P", "", "R", "g", ""⟩, ⟨"P", "D", "R2", "h", ""⟩]⟩).filter fun r =>
           r.name == "P" && r.shared_root == "R")) :=
  ⟨by decide, (unregister_package_breadth ⟨[], [⟨"P", "A", "R", "f", ""⟩,
    ⟨"P", "", "R", "g", ""⟩, ⟨"P", "D", "R2", "h", ""⟩]⟩ "A" "P" "R").1 (by decide)⟩

/-! ## Theorems about the discovery parser -/

/-- Claim C6 (corrected, counterexample): when the discovery subprocess does
not terminate within the bounded wait, `deps_result.wait(60)` raises
`TimeoutExpired`, which escapes `get_optional_deps` — the function does not
return the empty list then. -/
theorem get_optional_deps_timeout_cex :
    get_optional_deps ("Found optional dependencies\n".toList) none =
      .timeoutExpired ("Found optional dependencies\n".toList) ∧
    DepsOutcome.timeoutExpired ("Found optional dependencies\n".toList) ≠
      .ok ("Found optional dependencies\n".toList) [] true := by
  exact ⟨by decide, by decide⟩

/-- Claim C6 (amended): if the discovery subprocess terminates within the
bounded wait with a non-zero exit status, `get_optional_deps` discards every
tuple parsed so far, emits the warning and returns the empty list (the install
proceeds); but if the subprocess does not terminate within the 60-unit wait,
`wait(60)` raises `TimeoutExpired`, which propagates out of the discovery
phase instead of soft-failing. -/
theorem get_optional_deps_soft_failure (stream : List Char) (c : Int)
    (deps : List (String × String × Int))
    (hparse : parsePkgLines (readLines (forwardUntilSentinel stream []).2) = .ok deps)
    (hc : c ≠ 0) :
    get_optional_deps stream (some c) =
      .ok (forwardUntilSentinel stream []).1 [] true ∧
    get_optional_deps stream none =
      .timeoutExpired (forwardUntilSentinel stream []).1 := by
  constructor <;> simp [get_optional_deps, hparse, hc]

/-- Witness for `get_optional_deps_soft_failure` at a concrete stream and exit
status. -/
theorem get_optional_deps_soft_failure_witness :
    parsePkgLines (readLines (forwardUntilSentinel
        ("noise\nFound optional dependencies\nPKG: a::::d::::1\n".toList) []).2) =
      .ok [("a", "d", 1)] ∧
    (1 : Int) ≠ 0 ∧
    (get_optional_deps ("noise\nFound optional dependencies\nPKG: a::::d::::1\n".toList)
        (some 1) =
      .ok (forwardUntilSentinel
        ("noise\nFound optional dependencies\nPKG: a::::d::::1\n".toList) []).1 [] true ∧
     get_optional_deps ("noise\nFound optional dependencies\nPKG: a::::d::::1\n".toList)
        none =
      .timeoutExpired (forwardUntilSentinel
        ("noise\nFound optional dependencies\nPKG: a::::d::::1\n".toList) []).1) :=
  ⟨by rfl, by decide,
    get_optional_deps_soft_failure
      ("noise\nFound optional dependencies\nPKG: a::::d::::1\n".toList) 1 [("a", "d", 1)]
      (by rfl) (by decide)⟩

/-- Concatenation of newline-terminated lines. -/
def joinLines : List (List Char) → List Char
  | [] => []
  | l :: ls => l ++ '\n' :: joinLines ls

/-- A line that does not start with the sentinel is forwarded in full and the
loop continues on the rest of the stream. -/
theorem forward_plain_line (rest : List Char) :
    ∀ (cs acc : List Char), '\n' ∉ cs →
      startsWithChars pkg_start (acc.reverse ++ cs) = false →
      forwardUntilSentinel (cs ++ '\n' :: rest) acc =
        ((cs ++ '\n' :: (forwardUntilSentinel rest []).1),
         (forwardUntilSentinel rest []).2)
  | [], acc, _, h2 => by
    rw [List.nil_append]
    rw [List.append_nil] at h2
    simp [forwardUntilSentinel, h2]
  | c :: cs, acc, h1, h2 => by
    have hc : c ≠ '\n' := fun h => h1 (h ▸ List.mem_cons_self c cs)
    have ih := forward_plain_line rest cs (c :: acc)
      (fun h => h1 (List.mem_cons_of_mem c h))
      (by rw [List.reverse_cons, List.append_assoc]; exact h2)
    simp [forwardUntilSentinel, hc, ih]

/-- A line that starts with the sentinel is forwarded (with its newline) and
the loop breaks, leaving the rest of the stream unread. -/
theorem forward_sentinel_line (rest : List Char) :
    ∀ (cs acc : List Char), '\n' ∉ cs →
      startsWithChars pkg_start (acc.reverse ++ cs) = true →
      forwardUntilSentinel (cs ++ '\n' :: rest) acc = (cs ++ ['\n'], rest)
  | [], acc, _, h2 => by
    rw [List.append_nil] at h2
    simp [forwardUntilSentinel, h2]
  | c :: cs, acc, h1, h2 => by
    have hc : c ≠ '\n' := fun h => h1 (h ▸ List.mem_cons_self c cs)
    have ih := forward_sentinel_line rest cs (c :: acc)
      (fun h => h1 (List.mem_cons_of_mem c h))
      (by rw [List.reverse_cons, List.append_assoc]; exact h2)
    simp [forwardUntilSentinel, hc, ih]

/-- Noise lines before the sentinel are all forwarded and do not affect the
rest of the run. -/
theorem forward_noise (rest : List Char) :
    ∀ noise : List (List Char),
      (∀ l ∈ noise, '\n' ∉ l ∧ startsWithChars pkg_start l = false) →
      forwardUntilSentinel (joinLines noise ++ rest) [] =
        ((joinLines noise ++ (forwardUntilSentinel rest []).1),
         (forwardUntilSentinel rest []).2)
  | [], _ => by simp [joinLines]
  | l :: ls, h => by
    have hl := h l (List.mem_cons_self l ls)
    have ih := forward_noise rest ls fun x hx => h x (List.mem_cons_of_mem l hx)
    rw [joinLines, List.append_assoc, List.cons_append]
    rw [forward_plain_line (joinLines ls ++ rest) l [] hl.1 (by simpa using hl.2), ih]
    simp

/-- `readline` splits a newline-terminated line off the remaining stream. -/
theorem readLinesAux_line (rest : List Char) :
    ∀ (l acc : List Char), '\n' ∉ l →
      readLinesAux (l ++ '\n' :: rest) acc =
        (acc.reverse ++ l ++ ['\n']) :: readLinesAux rest []
  | [], acc, _ => by simp [readLinesAux]
  | c :: cs, acc, h1 => by
    have hc : c ≠ '\n' := fun h => h1 (h ▸ List.mem_cons_self c cs)
    have ih := readLinesAux_line rest cs (c :: acc) fun h => h1 (List.mem_cons_of_mem c h)
    rw [List.cons_append, readLinesAux, if_neg hc, ih]
    simp

/-- Claim C5 (corrected, counterexample): a line that merely starts with the
sentinel text but is not equal to it (nor equal to it modulo a trailing
carriage return) still stops forwarding: the trailing `Q` of the stream is not
forwarded. -/
theorem sentinel_startswith_cex :
    forwardUntilSentinel ("Found optional dependenciesX\nQ".toList) [] =
      ("Found optional dependenciesX\n".toList, ['Q']) ∧
    "Found optional dependenciesX".toList ≠ pkg_start ∧
    "Found optional dependenciesX".toList ≠ pkg_start ++ ['\r'] := by
  exact ⟨by decide, by decide, by decide⟩

/-- Claim C5 (amended): byte forwarding stops exactly when a decoded line
starts with the sentinel text (in particular a sentinel line with a trailing
carriage return stops it); every earlier line is forwarded in full; and each
subsequent line of the record form `PKG: <name>::::<description>::::<level>`
with a decimal integer level is appended in arrival order, so three well-formed
record lines yield exactly three ordered tuples with the parsed levels. -/
theorem get_optional_deps_parsing (noise : List (List Char))
    (sent r1 r2 r3 n1 d1 l1 n2 d2 l2 n3 d3 l3 : List Char) (v1 v2 v3 : Int)
    (hnoise : ∀ l ∈ noise, '\n' ∉ l ∧ startsWithChars pkg_start l = false)
    (hsent1 : '\n' ∉ sent) (hsent2 : startsWithChars pkg_start sent = true)
    (hr1 : '\n' ∉ r1) (hr2 : '\n' ∉ r2) (hr3 : '\n' ∉ r3)
    (hp1 : splitFourColons ((r1 ++ ['\n']).drop 5) [] = [n1, d1, l1])
    (hp2 : splitFourColons ((r2 ++ ['\n']).drop 5) [] = [n2, d2, l2])
    (hp3 : splitFourColons ((r3 ++ ['\n']).drop 5) [] = [n3, d3, l3])
    (hv1 : pyInt? l1 = some v1) (hv2 : pyInt? l2 = some v2) (hv3 : pyInt? l3 = some v3) :
    get_optional_deps (joinLines noise ++ (sent ++ '\n' :: joinLines [r1, r2, r3]))
        (some 0) =
      .ok (joinLines noise ++ (sent ++ ['\n']))
        [(String.mk n1, String.mk d1, v1), (String.mk n2, String.mk d2, v2),
         (String.mk n3, String.mk d3, v3)] false := by
  have hfwd : forwardUntilSentinel
      (joinLines noise ++ (sent ++ '\n' :: joinLines [r1, r2, r3])) [] =
      ((joinLines noise ++ (sent ++ ['\n'])), joinLines [r1, r2, r3]) := by
    rw [forward_noise _ noise hnoise,
      forward_sentinel_line _ sent [] hsent1 (by simpa using hsent2)]
  have hlines : readLines (joinLines [r1, r2, r3]) = [r1 ++ ['\n'], r2 ++ ['\n'], r3 ++ ['\n']] := by
    show readLinesAux (r1 ++ '\n' :: joinLines [r2, r3]) [] = _
    rw [readLinesAux_line _ r1 [] hr1]
    show _ :: readLinesAux (r2 ++ '\n' :: joinLines [r3]) [] = _
    rw [readLinesAux_line _ r2 [] hr2]
    show _ :: _ :: readLinesAux (r3 ++ '\n' :: joinLines []) [] = _
    rw [readLinesAux_line _ r3 [] hr3]
    simp [joinLines, readLinesAux]
  have hparse : parsePkgLines [r1 ++ ['\n'], r2 ++ ['\n'], r3 ++ ['\n']] =
      .ok [(String.mk n1, String.mk d1, v1), (String.mk n2, String.mk d2, v2),
           (String.mk n3, String.mk d3, v3)] := by
    simp only [parsePkgLines, parsePkgLine, hp1, hp2, hp3, hv1, hv2, hv3]
    rfl
  rw [get_optional_deps, hfwd]
  simp only [hlines, hparse]
  rfl

/-- Witness for `get_optional_deps_parsing`: leading noise, the sentinel with a
trailing carriage return, and three well-formed record lines. -/
theorem get_optional_deps_parsing_witness :
    (∀ l ∈ [("downloading 42%".toList)], '\n' ∉ l ∧
        startsWithChars pkg_start l = false) ∧
    '\n' ∉ (pkg_start ++ ['\r']) ∧
    startsWithChars pkg_start (pkg_start ++ ['\r']) = true ∧
    '\n' ∉ "PKG: a::::descA::::1".toList ∧
    '\n' ∉ "PKG: b::::descB::::2".toList ∧
    '\n' ∉ "PKG: c::::descC:::: 2 ".toList ∧
    splitFourColons (("PKG: a::::descA::::1".toList ++ ['\n']).drop 5) [] =
      ["a".toList, "descA".toList, "1\n".toList] ∧
    splitFourColons (("PKG: b::::descB::::2".toList ++ ['\n']).drop 5) [] =
      ["b".toList, "descB".toList, "2\n".toList] ∧
    splitFourColons (("PKG: c::::descC:::: 2 ".toList ++ ['\n']).drop 5) [] =
      ["c".toList, "descC".toList, " 2 \n".toList] ∧
    pyInt? "1\n".toList = some 1 ∧
    pyInt? "2\n".toList = some 2 ∧
    pyInt? " 2 \n".toList = some 2 ∧
    get_optional_deps (joinLines [("downloading 42%".toList)] ++
        ((pkg_start ++ ['\r']) ++ '\n' :: joinLines ["PKG: a::::descA::::1".toList,
          "PKG: b::::descB::::2".toList, "PKG: c::::descC:::: 2 ".toList])) (some 0) =
      .ok (joinLines [("downloading 42%".toList)] ++ ((pkg_start ++ ['\r']) ++ ['\n']))
        [(String.mk "a".toList, String.mk "descA".toList, 1),
         (String.mk "b".toList, String.mk "descB".toList, 2),
         (String.mk "c".toList, String.mk "descC".toList, 2)] false :=
  ⟨by decide, by decide, by decide, by decide, by decide, by decide, by decide, by decide,
   by decide, by decide, by decide, by decide,
   get_optional_deps_parsing [("downloading 42%".toList)] (pkg_start ++ ['\r'])
     "PKG: a::::descA::::1".toList "PKG: b::::descB::::2".toList
     "PKG: c::::descC:::: 2 ".toList
     "a".toList "descA".toList "1\n".toList
     "b".toList "descB".toList "2\n".toList
     "c".toList "descC".toList " 2 \n".toList 1 2 2
     (by decide) (by decide) (by decide) (by decide) (by decide) (by decide)
     (by decide) (by decide) (by decide) (by decide) (by decide) (by decide)⟩

/-! ## Theorems about the install orchestrator -/

/-- `installedPkgs` distributes over trace concatenation. -/
theorem installedPkgs_append (a b : List Event) :
    installedPkgs (a ++ b) = installedPkgs a ++ installedPkgs b :=
  List.filterMap_append a b _

/-- `discoveredPkgs` distributes over trace concatenation. -/
theorem discoveredPkgs_append (a b : List Event) :
    discoveredPkgs (a ++ b) = discoveredPkgs a ++ discoveredPkgs b :=
  List.filterMap_append a b _

/-- A dependency-level call (as issued by the recursion: `opt_deps_cmd = ""`,
`opt_dep_install = True`, `check_cmd = ""`, `selected_deps = None`) runs no
discovery and no further recursion: it prints the info line, runs the install
command once, and on success wraps (only when dependency wrappers were
requested) and registers with the `optional(<primary>)` type tag. -/
theorem installPackage_dep_run (env : InstallEnv) (fuel : Nat) (dep argsPackage : String)
    (addDepWrappers quiet : Bool) :
    installPackage env (fuel + 1) dep argsPackage addDepWrappers "" true "" none quiet =
      (env.installResult dep,
        (if quiet then [] else [.info dep]) ++
          [.install dep true (env.installResult dep)] ++
          (if env.installResult dep = 0 then
            (if addDepWrappers then [Event.wrap dep] else []) ++
              [.register dep ("optional(" ++ argsPackage ++ ")")]
          else [])) := by
  by_cases hres : env.installResult dep = 0 <;> by_cases hq : quiet <;>
    simp [installPackage, hres, hq]

/-- The install and discovery events of a dependency-level call: exactly one
install of the dependency, no discovery. -/
theorem installPackage_dep_events (env : InstallEnv) (fuel : Nat) (dep argsPackage : String)
    (addDepWrappers quiet : Bool) :
    installedPkgs (installPackage env (fuel + 1) dep argsPackage addDepWrappers ""
        true "" none quiet).2 = [dep] ∧
    discoveredPkgs (installPackage env (fuel + 1) dep argsPackage addDepWrappers ""
        true "" none quiet).2 = [] := by
  rw [installPackage_dep_run]
  by_cases hres : env.installResult dep = 0 <;> by_cases hq : quiet <;>
  by_cases hw : addDepWrappers <;>
    simp [installedPkgs, discoveredPkgs, hres, hq, hw, List.filterMap_append]

/-- A top-level call with a caller-supplied dependency list: no discovery, the
primary install once, and on success one dependency-level call per listed name
in order. -/
theorem installPackage_top_selected (env : InstallEnv) (k : Nat) (p argsP : String)
    (adw : Bool) (optDepsCmd : String) (l : List String) (quiet : Bool) :
    installPackage env (k + 2) p argsP adw optDepsCmd false "" (some l) quiet =
      (env.installResult p,
        (if quiet then [] else [.info p]) ++
          [.install p false (env.installResult p)] ++
          (if env.installResult p = 0 then
            [Event.wrap p] ++ [.register p ""] ++
              l.flatMap (fun dep =>
                (installPackage env (k + 1) dep argsP adw "" true "" none quiet).2)
          else [])) := by
  by_cases hres : env.installResult p = 0 <;> by_cases hq : quiet <;>
    simp [installPackage, hres, hq]

/-- The events contributed by the recursion over the selected list: each name
installed exactly once in order, no discovery anywhere. -/
theorem installPackage_deps_flatMap (env : InstallEnv) (k : Nat) (argsP : String)
    (adw quiet : Bool) :
    ∀ l : List String,
      installedPkgs (l.flatMap fun dep =>
        (installPackage env (k + 1) dep argsP adw "" true "" none quiet).2) = l ∧
      discoveredPkgs (l.flatMap fun dep =>
        (installPackage env (k + 1) dep argsP adw "" true "" none quiet).2) = []
  | [] => by simp [installedPkgs, discoveredPkgs]
  | dep :: rest => by
    have ih := installPackage_deps_flatMap env k argsP adw quiet rest
    have hdep := installPackage_dep_events env k dep argsP adw quiet
    rw [List.flatMap_cons, installedPkgs_append, discoveredPkgs_append,
      hdep.1, hdep.2, ih.1, ih.2]
    simp

/-- Claim C7: for a top-level install with a caller-supplied dependency list
(no check command — the primary install command actually runs), the return
value is the primary install command's exit status, unchanged by the
dependency installs; no discovery runs anywhere (recursive calls pass
`opt_deps_cmd = ""`); on success each selected name is installed exactly once
(recursion depth one); on failure no dependency is installed. -/
theorem install_recursion_bound (env : InstallEnv) (k : Nat) (p argsP : String)
    (adw : Bool) (optDepsCmd : String) (l : List String) (quiet : Bool)
    (hnd : l.Nodup) (hp : p ∉ l) :
    (installPackage env (k + 2) p argsP adw optDepsCmd false "" (some l) quiet).1 =
      env.installResult p ∧
    discoveredPkgs
      (installPackage env (k + 2) p argsP adw optDepsCmd false "" (some l) quiet).2 = [] ∧
    (env.installResult p = 0 →
      installedPkgs
        (installPackage env (k + 2) p argsP adw optDepsCmd false "" (some l) quiet).2 =
        p :: l ∧
      ∀ d ∈ l, (installedPkgs
        (installPackage env (k + 2) p argsP adw optDepsCmd false "" (some l) quiet).2).count
          d = 1) ∧
    (env.installResult p ≠ 0 →
      installedPkgs
        (installPackage env (k + 2) p argsP adw optDepsCmd false "" (some l) quiet).2 =
        [p]) := by
  have hflat := installPackage_deps_flatMap env k argsP adw quiet l
  rw [installPackage_top_selected]
  refine ⟨rfl, ?_, ?_, ?_⟩
  · simp only [apply_ite discoveredPkgs, discoveredPkgs_append, hflat.2]
    by_cases hq : quiet <;> simp [hq, discoveredPkgs]
  · intro hres
    have hpkgs : installedPkgs ((if quiet then [] else [Event.info p]) ++
        [Event.install p false (env.installResult p)] ++
        (if env.installResult p = 0 then
          [Event.wrap p] ++ [Event.register p ""] ++
            l.flatMap (fun dep =>
              (installPackage env (k + 1) dep argsP adw "" true "" none quiet).2)
        else [])) = p :: l := by
      simp only [apply_ite installedPkgs, installedPkgs_append, hflat.1]
      by_cases hq : quiet <;> simp [hq, installedPkgs, hres]
    refine ⟨hpkgs, ?_⟩
    intro d hd
    rw [hpkgs, List.count_cons]
    rw [List.count_eq_one_of_mem hnd hd]
    simp only [beq_iff_eq]
    rw [if_neg fun h : p = d => hp (h.symm ▸ hd)]
  · intro hres
    simp only [apply_ite installedPkgs, installedPkgs_append, hflat.1]
    by_cases hq : quiet <;> simp [hq, installedPkgs, hres]

/-- Witness for `install_recursion_bound` at a concrete environment and
selected list. -/
theorem install_recursion_bound_witness :
    (["dep1", "dep2"] : List String).Nodup ∧ ("vim" : String) ∉ ["dep1", "dep2"] ∧
    ((installPackage
        { checkResult := fun _ => 1, installResult := fun _ => 0,
          discovered := fun _ => [("x", "y", 1)], selection := fun _ _ => [] }
        2 "vim" "vim" false "depcmd" false "" (some ["dep1", "dep2"]) false).1 = 0 ∧
     discoveredPkgs (installPackage
        { checkResult := fun _ => 1, installResult := fun _ => 0,
          discovered := fun _ => [("x", "y", 1)], selection := fun _ _ => [] }
        2 "vim" "vim" false "depcmd" false "" (some ["dep1", "dep2"]) false).2 = [] ∧
     ((0 : Int) = 0 →
      installedPkgs (installPackage
        { checkResult := fun _ => 1, installResult := fun _ => 0,
          discovered := fun _ => [("x", "y", 1)], selection := fun _ _ => [] }
        2 "vim" "vim" false "depcmd" false "" (some ["dep1", "dep2"]) false).2 =
        "vim" :: ["dep1", "dep2"] ∧
      ∀ d ∈ (["dep1", "dep2"] : List String),
        (installedPkgs (installPackage
          { checkResult := fun _ => 1, installResult := fun _ => 0,
            discovered := fun _ => [("x", "y", 1)], selection := fun _ _ => [] }
          2 "vim" "vim" false "depcmd" false "" (some ["dep1", "dep2"]) false).2).count d
          = 1) ∧
     ((0 : Int) ≠ 0 →
      installedPkgs (installPackage
        { checkResult := fun _ => 1, installResult := fun _ => 0,
          discovered := fun _ => [("x", "y", 1)], selection := fun _ _ => [] }
        2 "vim" "vim" false "depcmd" false "" (some ["dep1", "dep2"]) false).2 = ["vim"])) :=
  ⟨by decide, by decide,
    install_recursion_bound
      { checkResult := fun _ => 1, installResult := fun _ => 0,
        discovered := fun _ => [("x", "y", 1)], selection := fun _ _ => [] }
      0 "vim" "vim" false "depcmd" ["dep1", "dep2"] false (by decide) (by decide)⟩

/-- Claim C8: when a check command was supplied and it reports the package
already installed (exit status 0), the install command is skipped and the call
returns success, with the notice printed exactly when quiet suppression was
not requested; when no check command was supplied, or the check reports
not-installed, the install command runs (once) and its exit status is the
result. -/
theorem install_check_existing (env : InstallEnv) (k : Nat) (p argsP : String)
    (adw quiet : Bool) (checkCmd : String) :
    (checkCmd ≠ "" → env.checkResult p = 0 →
      (installPackage env (k + 1) p argsP adw "" false checkCmd none quiet).1 = 0 ∧
      installedPkgs
        (installPackage env (k + 1) p argsP adw "" false checkCmd none quiet).2 = [] ∧
      noticeCount
        (installPackage env (k + 1) p argsP adw "" false checkCmd none quiet).2 =
        (if quiet then 0 else 1)) ∧
    ((checkCmd = "" ∨ env.checkResult p ≠ 0) →
      (installPackage env (k + 1) p argsP adw "" false checkCmd none quiet).1 =
        env.installResult p ∧
      installedPkgs
        (installPackage env (k + 1) p argsP adw "" false checkCmd none quiet).2 = [p]) := by
  constructor
  · intro hcheck hzero
    by_cases hq : quiet <;>
      simp [installPackage, hcheck, hzero, hq, installedPkgs, noticeCount]
  · intro hor
    rcases hor with hc | hc
    · by_cases hres : env.installResult p = 0 <;> by_cases hq : quiet <;>
        simp [installPackage, hc, hres, hq, installedPkgs]
    · by_cases hcc : checkCmd = ""
      · by_cases hres : env.installResult p = 0 <;> by_cases hq : quiet <;>
          simp [installPackage, hcc, hres, hq, installedPkgs]
      · by_cases hres : env.installResult p = 0 <;> by_cases hq : quiet <;>
          simp [installPackage, hcc, hc, hres, hq, installedPkgs]

/-- Witness for `install_check_existing` at a concrete environment: the check
reports already-installed, so the install command is skipped and the notice is
printed. -/
theorem install_check_existing_witness :
    ("infocmd" : String) ≠ "" ∧
    (installPackage
      { checkResult := fun _ => 0, installResult := fun _ => 7,
        discovered := fun _ => [], selection := fun _ _ => [] }
      1 "vim" "vim" false "" false "infocmd" none false).1 = 0 ∧
    installedPkgs (installPackage
      { checkResult := fun _ => 0, installResult := fun _ => 7,
        discovered := fun _ => [], selection := fun _ _ => [] }
      1 "vim" "vim" false "" false "infocmd" none false).2 = [] ∧
    noticeCount (installPackage
      { checkResult := fun _ => 0, installResult := fun _ => 7,
        discovered := fun _ => [], selection := fun _ _ => [] }
      1 "vim" "vim" false "" false "infocmd" none false).2 = (if false then 0 else 1) :=
  ⟨by decide,
    (install_check_existing
      { checkResult := fun _ => 0, installResult := fun _ => 7,
        discovered := fun _ => [], selection := fun _ _ => [] }
      0 "vim" "vim" false false "infocmd").1 (by decide) (by decide)⟩

/-! ## Theorems about container unregistration (claim C1) -/

/-- The orphan update preserves row names. -/
theorem orphanUpdateRow_name (pkgs : List PackageRow) (cn : String) (r : PackageRow) :
    (orphanUpdateRow pkgs cn r).name = r.name := by
  rw [orphanUpdateRow]; split <;> rfl

/-- A row whose name is not selected is untouched by the orphan update. -/
theorem orphanUpdateRow_of_false (pkgs : List PackageRow) (cn : String) (r : PackageRow)
    (h : orphanNameSelect pkgs cn r.name = false) :
    orphanUpdateRow pkgs cn r = r := by
  simp [orphanUpdateRow, h]

/-- A row whose name is selected gets its container blanked. -/
theorem orphanUpdateRow_of_true (pkgs : List PackageRow) (cn : String) (r : PackageRow)
    (h : orphanNameSelect pkgs cn r.name = true) :
    orphanUpdateRow pkgs cn r = { r with container := "" } := by
  simp [orphanUpdateRow, h]

/-- A name owned by no row of the departing container is never selected. -/
theorem orphanNameSelect_false_of_absent (pkgs : List PackageRow) (cn n : String)
    (h : ∀ d ∈ pkgs, d.container = cn → d.name ≠ n) :
    orphanNameSelect pkgs cn n = false := by
  rw [orphanNameSelect, List.any_eq_false]
  intro d hd
  by_cases hc : d.container = cn
  · simp [hc, h d hd hc]
  · simp [hc]

/-- A name is not selected for orphaning when the departing container's row for
it has a same-name, same-shared-root peer in another container (the left outer
join finds a match, so `pkgs.name IS NULL` fails).  Uniqueness of the
`(name, container)` key pins the departing row down. -/
theorem orphanNameSelect_false_of_peer (pkgs : List PackageRow) (cn P : String)
    (hkeys : (pkgs.map PackageRow.key).Nodup)
    (d0 : PackageRow) (hd0 : d0 ∈ pkgs) (hd0n : d0.name = P) (hd0c : d0.container = cn)
    (peer : PackageRow) (hpeer : peer ∈ pkgs) (hpn : peer.name = P)
    (hpc : peer.container ≠ cn) (hpr : peer.shared_root ≠ "")
    (hpshare : peer.shared_root = d0.shared_root) :
    orphanNameSelect pkgs cn P = false := by
  rw [orphanNameSelect, List.any_eq_false]
  intro d hd
  by_cases hc : d.container = cn
  · by_cases hn : d.name = P
    · have hdd0 : d = d0 := by
        apply List.inj_on_of_nodup_map hkeys hd hd0
        rw [PackageRow.key, PackageRow.key, hn, hc, hd0n, hd0c]
      have hinner : (pkgs.any fun p => p.shared_root != "" && p.container != cn &&
          p.name == d.name && p.shared_root == d.shared_root) = true := by
        rw [List.any_eq_true]
        refine ⟨peer, hpeer, ?_⟩
        rw [hdd0]
        have hd0r : d0.shared_root ≠ "" := hpshare ▸ hpr
        simp [hpr, hpc, hpn, hd0n, hpshare, hd0r]
      simp [hinner]
    · simp [hn]
  · simp [hc]

/-- A name is selected for orphaning when the departing container's row for it
is the only row with that name at all. -/
theorem orphanNameSelect_true_of_sole (pkgs : List PackageRow) (cn P : String)
    (d0 : PackageRow) (hd0 : d0 ∈ pkgs) (hd0n : d0.name = P) (hd0c : d0.container = cn)
    (huniq : ∀ x ∈ pkgs, x.name = P → x = d0) :
    orphanNameSelect pkgs cn P = true := by
  rw [orphanNameSelect, List.any_eq_true]
  refine ⟨d0, hd0, ?_⟩
  have hinner : (pkgs.any fun p => p.shared_root != "" && p.container != cn &&
      p.name == d0.name && p.shared_root == d0.shared_root) = false := by
    rw [List.any_eq_false]
    intro p hp
    by_cases hn : p.name = d0.name
    · have : p = d0 := huniq p hp (hd0n ▸ hn)
      simp [this, hd0c]
    · simp [hn]
  rw [hinner]
  simp [hd0n, hd0c]

/-- The rows of a given name surviving a successful `__unregister_container`,
before any knowledge about the orphan select: merge the filters, push them
through the update map. -/
theorem unregister_name_filter (cn P : String) (pkgs : List PackageRow) :
    (((orphanUpdateRows pkgs cn).filter fun p => p.container != cn).filter
        fun r => r.name == P) =
      (pkgs.filter fun a =>
        a.name == P && ((orphanUpdateRow pkgs cn a).container != cn)).map
        (orphanUpdateRow pkgs cn) := by
  rw [List.filter_filter, orphanUpdateRows, List.filter_map]
  congr 1
  apply List.filter_congr
  intro a _
  simp [Function.comp, orphanUpdateRow_name]

/-- A selected name is owned by some row of the departing container. -/
theorem orphanNameSelect_exists (pkgs : List PackageRow) (cn n : String)
    (h : orphanNameSelect pkgs cn n = true) :
    ∃ d ∈ pkgs, d.container = cn ∧ d.name = n := by
  rw [orphanNameSelect, List.any_eq_true] at h
  obtain ⟨d, hd, hcond⟩ := h
  simp only [Bool.and_eq_true, beq_iff_eq] at hcond
  exact ⟨d, hd, hcond.1.1, hcond.1.2⟩

/-- Evaluation of `__unregister_container` when the container exists with a
non-empty shared root and the orphaning `UPDATE` passes its key constraint. -/
theorem unregisterContainerCore_shared_ok (cn : String) (st : YboxState)
    (c : ContainerRow)
    (hfind : st.containers.find? (fun x => x.name == cn) = some c)
    (hroot : c.shared_root ≠ "")
    (hnd : ((orphanUpdateRows st.packages cn).map PackageRow.key).Nodup) :
    unregisterContainerCore cn st =
      .ok (true, ⟨st.containers.filter fun x => x.name != cn,
        (orphanUpdateRows st.packages cn).filter fun p => p.container != cn⟩) := by
  simp [unregisterContainerCore, hfind, orphanUpdate, hroot, hnd]

/-- Evaluation of `__unregister_container` when the container exists with a
non-empty shared root and the orphaning `UPDATE` violates the key constraint:
the `IntegrityError` propagates. -/
theorem unregisterContainerCore_shared_err (cn : String) (st : YboxState)
    (c : ContainerRow)
    (hfind : st.containers.find? (fun x => x.name == cn) = some c)
    (hroot : c.shared_root ≠ "")
    (hnd : ¬ ((orphanUpdateRows st.packages cn).map PackageRow.key).Nodup) :
    unregisterContainerCore cn st =
      .error "UNIQUE constraint failed: packages.name, packages.container" := by
  simp [unregisterContainerCore, hfind, orphanUpdate, hroot, hnd]

/-- Inversion of a successful `__unregister_container` run when the container
exists with a non-empty shared root. -/
theorem unregisterContainerCore_shared_inv (cn : String) (st : YboxState)
    (c : ContainerRow) (b : Bool) (st' : YboxState)
    (hfind : st.containers.find? (fun x => x.name == cn) = some c)
    (hroot : c.shared_root ≠ "")
    (h : unregisterContainerCore cn st = .ok (b, st')) :
    b = true ∧
    st' = ⟨st.containers.filter fun x => x.name != cn,
      (orphanUpdateRows st.packages cn).filter fun p => p.container != cn⟩ ∧
    ((orphanUpdateRows st.packages cn).map PackageRow.key).Nodup := by
  by_cases hnd : ((orphanUpdateRows st.packages cn).map PackageRow.key).Nodup
  · rw [unregisterContainerCore_shared_ok cn st c hfind hroot hnd] at h
    injection h with h'
    injection h' with hb hst
    exact ⟨hb.symm, hst.symm, hnd⟩
  · rw [unregisterContainerCore_shared_err cn st c hfind hroot hnd] at h
    exact absurd h (by simp)

/-- Claim C1 (amended): if containers `A` and `B` share the non-empty root `R`
and both own a row for package `P` (with `A`, `B` being the only owners of
rows named `P`, and keys/names unique as the primary keys guarantee), then
whenever `unregister_container A` completes — it can instead raise an
`IntegrityError` from the orphaning `UPDATE` and leave the database unchanged,
see the counterexample — it reports success, leaves exactly `B`'s row for `P`
(no orphan row for `P`), and modifies or deletes no package row owned by any
container other than `A` (in particular none owned by containers that do not
share root `R`); and whenever unregistering `B` afterwards also completes,
exactly one row for `P` remains, with container set to the empty string. -/
theorem unregister_container_orphan_invariant (st : YboxState) (A B P R : String)
    (cA cB : ContainerRow) (rPA rPB : PackageRow)
    (hAB : A ≠ B) (hB0 : B ≠ "") (hR : R ≠ "")
    (hCnodup : (st.containers.map ContainerRow.name).Nodup)
    (hcA : cA ∈ st.containers) (hcAn : cA.name = A) (hcAr : cA.shared_root = R)
    (hcB : cB ∈ st.containers) (hcBn : cB.name = B) (hcBr : cB.shared_root = R)
    (hPK : (st.packages.map PackageRow.key).Nodup)
    (hrPA : rPA ∈ st.packages) (hPAn : rPA.name = P) (hPAc : rPA.container = A)
    (hPAr : rPA.shared_root = R)
    (hrPB : rPB ∈ st.packages) (hPBn : rPB.name = P) (hPBc : rPB.container = B)
    (hPBr : rPB.shared_root = R)
    (hPown : ∀ r ∈ st.packages, r.name = P → r.container = A ∨ r.container = B) :
    ∀ b1 st1, unregister_container A st = .ok (b1, st1) →
      b1 = true ∧
      (st1.packages.filter fun r => r.name == P) = [rPB] ∧
      (∀ r ∈ st.packages, r.container ≠ A → r ∈ st1.packages) ∧
      (∀ b2 st2, unregister_container B st1 = .ok (b2, st2) →
        (st2.packages.filter fun r => r.name == P) = [{ rPB with container := "" }]) := by
  intro b1 st1 h1
  have hfindA : st.containers.find? (fun x => x.name == A) = some cA :=
    find_name_unique A cA st.containers hCnodup hcA hcAn
  have hrootA : cA.shared_root ≠ "" := by rw [hcAr]; exact hR
  obtain ⟨hb1, hst1, hnd1⟩ :=
    unregisterContainerCore_shared_inv A st cA b1 st1 hfindA hrootA h1
  subst hst1
  have hK1 : orphanNameSelect st.packages A P = false :=
    orphanNameSelect_false_of_peer st.packages A P hPK rPA hrPA hPAn hPAc rPB hrPB hPBn
      (by rw [hPBc]; exact fun h => hAB h.symm) (by rw [hPBr]; exact hR)
      (by rw [hPBr, hPAr])
  have hq : (((orphanUpdateRows st.packages A).filter fun p => p.container != A).filter
      fun r => r.name == P) = [rPB] := by
    rw [unregister_name_filter]
    have hcongr : (st.packages.filter fun a =>
        a.name == P && ((orphanUpdateRow st.packages A a).container != A)) =
        st.packages.filter fun a => a.name == P && a.container != A := by
      apply List.filter_congr
      intro a _
      by_cases hn : a.name = P
      · rw [orphanUpdateRow_of_false st.packages A a (by rw [hn]; exact hK1)]
      · have hf : (a.name == P) = false := by simp [hn]
        rw [hf, Bool.false_and, Bool.false_and]
    rw [hcongr]
    have hsingle : (st.packages.filter fun a => a.name == P && a.container != A)
        = [rPB] := by
      apply filter_eq_singleton_of_key PackageRow.key _ rPB st.packages hPK hrPB
      · simp only [hPBn, hPBc, Bool.and_eq_true, beq_iff_eq, bne_iff_ne, ne_eq]
        exact ⟨trivial, fun h => hAB h.symm⟩
      · intro x hx hpx
        simp only [Bool.and_eq_true, beq_iff_eq, bne_iff_ne, ne_eq] at hpx
        rcases hPown x hx hpx.1 with hA | hB
        · exact absurd hA hpx.2
        · rw [PackageRow.key, PackageRow.key, hpx.1, hB, hPBn, hPBc]
    rw [hsingle]
    rw [List.map_cons, List.map_nil,
      orphanUpdateRow_of_false st.packages A rPB (by rw [hPBn]; exact hK1)]
  refine ⟨hb1, hq, ?_, ?_⟩
  · -- on success no row of another container is touched: a selected name with
    -- a second owner would have made the update collide on the key
    intro r hr hrA
    by_cases hsel : orphanNameSelect st.packages A r.name = true
    · exfalso
      obtain ⟨d, hd, hdc, hdn⟩ := orphanNameSelect_exists st.packages A r.name hsel
      have hkey : (PackageRow.key ∘ orphanUpdateRow st.packages A) d =
          (PackageRow.key ∘ orphanUpdateRow st.packages A) r := by
        simp only [Function.comp]
        rw [orphanUpdateRow_of_true st.packages A d (by rw [hdn]; exact hsel),
          orphanUpdateRow_of_true st.packages A r hsel]
        simp [PackageRow.key, hdn]
      have hmapnd : (st.packages.map
          (PackageRow.key ∘ orphanUpdateRow st.packages A)).Nodup := by
        rw [← List.map_map]
        exact hnd1
      have hdr : d = r := List.inj_on_of_nodup_map hmapnd hd hr hkey
      rw [hdr] at hdc
      exact hrA hdc
    · have hfix : orphanUpdateRow st.packages A r = r :=
        orphanUpdateRow_of_false st.packages A r (by simpa using hsel)
      have hmem : r ∈ orphanUpdateRows st.packages A := by
        rw [orphanUpdateRows]
        exact hfix ▸ List.mem_map_of_mem (orphanUpdateRow st.packages A) hr
      refine List.mem_filter.mpr ⟨hmem, ?_⟩
      simpa using hrA
  · intro b2 st2 h2
    have hCnodup1 : ((st.containers.filter fun x => x.name != A).map
        ContainerRow.name).Nodup :=
      List.Nodup.sublist (List.Sublist.map ContainerRow.name
        (List.filter_sublist st.containers)) hCnodup
    have hcB1 : cB ∈ st.containers.filter fun x => x.name != A :=
      List.mem_filter.mpr ⟨hcB, by rw [hcBn]; simpa using fun h : B = A => hAB h.symm⟩
    have hfindB : (st.containers.filter fun x => x.name != A).find?
        (fun x => x.name == B) = some cB :=
      find_name_unique B cB _ hCnodup1 hcB1 hcBn
    have hrootB : cB.shared_root ≠ "" := by rw [hcBr]; exact hR
    obtain ⟨hb2, hst2, hnd2⟩ := unregisterContainerCore_shared_inv B
      ⟨st.containers.filter fun x => x.name != A,
        (orphanUpdateRows st.packages A).filter fun p => p.container != A⟩
      cB b2 st2 hfindB hrootB h2
    subst hst2
    have hrPBq : rPB ∈ (orphanUpdateRows st.packages A).filter
        fun p => p.container != A := by
      have h1m : rPB ∈ ((orphanUpdateRows st.packages A).filter
          fun p => p.container != A).filter (fun r => r.name == P) := by
        rw [hq]; exact List.mem_singleton_self rPB
      exact (List.mem_filter.mp h1m).1
    have huniqq : ∀ x ∈ (orphanUpdateRows st.packages A).filter
        fun p => p.container != A, x.name = P → x = rPB := by
      intro x hx hn
      have h1m : x ∈ ((orphanUpdateRows st.packages A).filter
          fun p => p.container != A).filter (fun r => r.name == P) :=
        List.mem_filter.mpr ⟨hx, by simp [hn]⟩
      rw [hq] at h1m
      exact List.mem_singleton.mp h1m
    have hK3 : orphanNameSelect
        ((orphanUpdateRows st.packages A).filter fun p => p.container != A) B P = true :=
      orphanNameSelect_true_of_sole _ B P rPB hrPBq hPBn hPBc huniqq
    rw [unregister_name_filter]
    have hcongr2 : ((((orphanUpdateRows st.packages A).filter
        fun p => p.container != A)).filter
        fun a => a.name == P &&
          ((orphanUpdateRow ((orphanUpdateRows st.packages A).filter
            fun p => p.container != A) B a).container != B)) =
        ((orphanUpdateRows st.packages A).filter fun p => p.container != A).filter
          fun a => a.name == P := by
      apply List.filter_congr
      intro a ha
      by_cases hn : a.name = P
      · rw [orphanUpdateRow_of_true _ B a (by rw [hn]; exact hK3)]
        simp only [hn, beq_self_eq_true, Bool.true_and]
        simpa using fun h : ("" : String) = B => hB0 h.symm
      · simp [hn]
    rw [hcongr2, hq, List.map_cons, List.map_nil,
      orphanUpdateRow_of_true _ B rPB (by rw [hPBn]; exact hK3)]

/-- Concrete state for the C1 counterexample: `A` and `B` share root `R` and
both own `P` (the claim's premise); `A` also owns `Q`, and container `C` —
whose shared root `R2` is different from `R` — owns `Q` too. -/
def c1CexState : YboxState :=
  ⟨[⟨"A", "d", "R", "c"⟩, ⟨"B", "d", "R", "c"⟩, ⟨"C", "d", "R2", "c"⟩],
   [⟨"P", "A", "R", "", ""⟩, ⟨"P", "B", "R", "", ""⟩,
    ⟨"Q", "A", "R", "", ""⟩, ⟨"Q", "C", "R2", "", ""⟩]⟩

/-- Claim C1 (corrected, counterexample): at this state satisfying the claim's
premise, `unregister_container("A")` does not unregister anything — the
orphaning `UPDATE` selects `Q` (no same-root peer) and blanking both rows
named `Q` collides on the `(name, container)` primary key, so SQLite raises
`IntegrityError` and the transaction is rolled back.  Unregistering `B` on
the (unchanged) state afterwards simply deletes `B`'s row for `P`, `A`'s row
being a live same-root peer: exactly one row for `P` remains, but owned by
`A`, not an orphan with container `''`. -/
theorem unregister_container_integrity_cex :
    (⟨"A", "d", "R", "c"⟩ : ContainerRow) ∈ c1CexState.containers ∧
    (⟨"B", "d", "R", "c"⟩ : ContainerRow) ∈ c1CexState.containers ∧
    (⟨"P", "A", "R", "", ""⟩ : PackageRow) ∈ c1CexState.packages ∧
    (⟨"P", "B", "R", "", ""⟩ : PackageRow) ∈ c1CexState.packages ∧
    unregister_container "A" c1CexState =
      .error "UNIQUE constraint failed: packages.name, packages.container" ∧
    unregister_container "B" c1CexState =
      .ok (true, ⟨[⟨"A", "d", "R", "c"⟩, ⟨"C", "d", "R2", "c"⟩],
        [⟨"P", "A", "R", "", ""⟩, ⟨"Q", "A", "R", "", ""⟩,
         ⟨"Q", "C", "R2", "", ""⟩]⟩) :=
  ⟨by decide, by decide, by decide, by decide, by rfl, by rfl⟩

/-- Concrete state for the C1 witness: containers `A` and `B` share root `R`
and are the only owners of package `P`. -/
def c1WitnessState : YboxState :=
  ⟨[⟨"A", "d", "R", "c"⟩, ⟨"B", "d", "R", "c"⟩],
   [⟨"P", "A", "R", "w1", ""⟩, ⟨"P", "B", "R", "w2", ""⟩]⟩

/-- Witness for `unregister_container_orphan_invariant` on `c1WitnessState`,
with the success hypothesis discharged by the concrete run. -/
theorem unregister_container_orphan_invariant_witness :
    ("A" : String) ≠ "B" ∧ ("B" : String) ≠ "" ∧ ("R" : String) ≠ "" ∧
    (c1WitnessState.containers.map ContainerRow.name).Nodup ∧
    (⟨"A", "d", "R", "c"⟩ : ContainerRow) ∈ c1WitnessState.containers ∧
    (⟨"B", "d", "R", "c"⟩ : ContainerRow) ∈ c1WitnessState.containers ∧
    (c1WitnessState.packages.map PackageRow.key).Nodup ∧
    (⟨"P", "A", "R", "w1", ""⟩ : PackageRow) ∈ c1WitnessState.packages ∧
    (⟨"P", "B", "R", "w2", ""⟩ : PackageRow) ∈ c1WitnessState.packages ∧
    (∀ r ∈ c1WitnessState.packages, r.name = "P" →
      r.container = "A" ∨ r.container = "B") ∧
    unregister_container "A" c1WitnessState =
      .ok (true, ⟨[⟨"B", "d", "R", "c"⟩], [⟨"P", "B", "R", "w2", ""⟩]⟩) ∧
    (true = true ∧
     ((⟨[⟨"B", "d", "R", "c"⟩], [⟨"P", "B", "R", "w2", ""⟩]⟩ : YboxState).packages.filter
        fun r => r.name == "P") = [⟨"P", "B", "R", "w2", ""⟩] ∧
     (∀ r ∈ c1WitnessState.packages, r.container ≠ "A" →
        r ∈ (⟨[⟨"B", "d", "R", "c"⟩],
          [⟨"P", "B", "R", "w2", ""⟩]⟩ : YboxState).packages) ∧
     (∀ b2 st2, unregister_container "B"
          (⟨[⟨"B", "d", "R", "c"⟩], [⟨"P", "B", "R", "w2", ""⟩]⟩ : YboxState) =
            .ok (b2, st2) →
        (st2.packages.filter fun r => r.name == "P") =
          [{ (⟨"P", "B", "R", "w2", ""⟩ : PackageRow) with container := "" }])) :=
  ⟨by decide, by decide, by decide, by decide, by decide, by decide, by decide,
   by decide, by decide, by decide, by rfl,
   unregister_container_orphan_invariant c1WitnessState "A" "B" "P" "R"
     ⟨"A", "d", "R", "c"⟩ ⟨"B", "d", "R", "c"⟩
     ⟨"P", "A", "R", "w1", ""⟩ ⟨"P", "B", "R", "w2", ""⟩
     (by decide) (by decide) (by decide) (by decide) (by decide) (by decide)
     (by decide) (by decide) (by decide) (by decide) (by decide) (by decide)
     (by decide) (by decide) (by decide) (by decide) (by decide) (by decide)
     (by decide) (by decide)
     true ⟨[⟨"B", "d", "R", "c"⟩], [⟨"P", "B", "R", "w2", ""⟩]⟩ (by rfl)⟩
